import Mathlib

/-!
Verification development for `interppotential_calc_potential.c` of galpy:
the two entry points `calc_potential` (grid mode) and `eval_potential`
(paired mode), their descriptor parsing, composite evaluation, output
layout and teardown.

Machine `double` values are modelled as exact rationals (`ℚ`): the claims
under study concern data flow, layout and resource identity, not floating
point rounding.  C `int` counts are modelled as `ℕ` (a negative count makes
every `for` loop in the source iterate zero times, i.e. behaves as 0).
Flat caller buffers (`R`, `z`, `pot_args`, `out`, the scratch `row`) are
modelled as total functions `ℕ → ℚ`, so an initial buffer carries arbitrary
"memory contents" at every index.
-/

/-- The external per-type collaborator interface consumed by the parser and
the composite evaluator (per-type parameter counts, per-type auxiliary
allocations, per-type evaluation).  The spec treats it as opaque, so the
development is parametric in it.
`nargs ty = none` means the type code `ty` is unrecognized
(`UnsupportedPotentialType`); `some k` means entries of that type consume
`k` parameters from the flat parameter buffer.  `hasAcc`/`hasI2d` record
whether the per-type constructor allocates an owned interpolation
accelerator / spline-table for the entry.  `potEval` is the per-type
evaluation function at a coordinate `(R, z)`. -/
structure Collab where
  nargs : ℤ → Option ℕ
  hasAcc : ℤ → List ℚ → Bool
  hasI2d : ℤ → List ℚ → Bool
  potEval : ℤ → List ℚ → ℚ → ℚ → ℚ

/-- One element of the `struct potentialArg` array: the parsed type tag and
parameters, plus whether this entry owns an interpolation accelerator
(`acc` field in C, a pointer checked against NULL) and whether it owns a
spline/table structure (`i2d` field in C). -/
structure PotentialArg where
  ptype : ℤ
  params : List ℚ
  hasAcc : Bool
  hasI2d : Bool
deriving DecidableEq

/-- Modelled from the spec: the parsing loop of `parse_actionAngleArgs`
(repository code not included under `src/`), from descriptor index `i` and
parameter-buffer offset `off`, for `n` remaining descriptors.  For each
descriptor it dispatches on the type code, consumes the implied parameter
slice, and records the per-type auxiliary allocations as owned by that
entry; on an unrecognized type code it fails, keeping the entries already
constructed (the Boolean result is `false` exactly when an
`UnsupportedPotentialType` failure occurred). -/
def parseFrom (C : Collab) (pt : ℕ → ℤ) (pa : ℕ → ℚ) :
    ℕ → ℕ → ℕ → List PotentialArg × Bool
  | _, _, 0 => ([], true)
  | i, off, n+1 =>
    match C.nargs (pt i) with
    | none => ([], false)
    | some k =>
      let ps : List ℚ := List.ofFn (fun j : Fin k => pa (off + j.1))
      let e : PotentialArg := ⟨pt i, ps, C.hasAcc (pt i) ps, C.hasI2d (pt i) ps⟩
      let r := parseFrom C pt pa (i+1) (off+k) n
      (e :: r.1, r.2)

/-- Modelled from the spec: `parse_actionAngleArgs(npot, ·, pot_type,
pot_args)` — build the ordered entry list for the `npot` leading
descriptors of `pot_type`/`pot_args`. -/
def parse_actionAngleArgs (C : Collab) (npot : ℕ) (pt : ℕ → ℤ) (pa : ℕ → ℚ) :
    List PotentialArg × Bool :=
  parseFrom C pt pa 0 0 npot

/-- Total number of parameter-buffer cells consumed while parsing `n`
descriptors starting at descriptor index `i` (consumption stops at an
unrecognized type code, like the parser itself). -/
def consumedFrom (C : Collab) (pt : ℕ → ℤ) : ℕ → ℕ → ℕ
  | _, 0 => 0
  | i, n+1 =>
    match C.nargs (pt i) with
    | none => 0
    | some k => k + consumedFrom C pt (i+1) n

/-- Parameter-buffer cells consumed by a call with `npot` descriptors. -/
def consumed (C : Collab) (npot : ℕ) (pt : ℕ → ℤ) : ℕ :=
  consumedFrom C pt 0 npot

/-- Modelled from the spec: `evaluatePotentials(R, z, npot, args)`
(repository code not included under `src/`) — the Composite Evaluator: the
sum over all entries of the per-type contribution at the coordinate. -/
def evaluatePotentials (C : Collab) (R z : ℚ) (args : List PotentialArg) : ℚ :=
  (args.map (fun a => C.potEval a.ptype a.params R z)).sum

/-- Modelled from the spec: `put_row(out, i, row, nz)` (repository code not
included under `src/`) — copy the `nz`-element scratch row into the output
buffer at offset `i*nz`; all other cells of `out` are untouched. -/
def put_row (out : ℕ → ℚ) (i : ℕ) (row : ℕ → ℚ) (nz : ℕ) : ℕ → ℚ :=
  fun n => if i * nz ≤ n ∧ n < i * nz + nz then row (n - i * nz) else out n

/-- The inner loop of `calc_potential` (lines 32–34): write
`evaluatePotentials(R[ii], z[jj], ...)` into the scratch row at each
`jj < nz`; cells of the reused scratch buffer at `nz` and beyond keep
whatever they held before. -/
def fillRow (C : Collab) (args : List PotentialArg) (Ri : ℚ) (z : ℕ → ℚ)
    (row : ℕ → ℚ) : ℕ → (ℕ → ℚ)
  | 0 => row
  | m+1 =>
    Function.update (fillRow C args Ri z row m) m
      (evaluatePotentials C Ri (z m) args)

/-- The outer loop of `calc_potential` (lines 31–36): for each `ii` below
the iteration count, fill the scratch row for `R[ii]` and copy it into
`out` at offset `ii*nz`.  Returns the final `(out, row)` buffers. -/
def calcLoop (C : Collab) (args : List PotentialArg) (R z : ℕ → ℚ) (nz : ℕ)
    (out row : ℕ → ℚ) : ℕ → (ℕ → ℚ) × (ℕ → ℚ)
  | 0 => (out, row)
  | i+1 =>
    let p := calcLoop C args R z nz out row i
    let r := fillRow C args (R i) z p.2 nz
    (put_row p.1 i r nz, r)

/-- Shallow embedding of `calc_potential` (lines 16–43): allocate the
scratch row (initial contents `row`, arbitrary), parse the descriptors,
walk the `nR × nz` grid row-major, tear down, and return the final output
buffer together with the status cell `*err` (whose initial contents are
`err`).  The source never assigns `*err`, so it is returned unchanged. -/
def calc_potential (C : Collab) (nR : ℕ) (R : ℕ → ℚ) (nz : ℕ) (z : ℕ → ℚ)
    (npot : ℕ) (pot_type : ℕ → ℤ) (pot_args : ℕ → ℚ) (out row : ℕ → ℚ)
    (err : ℤ) : (ℕ → ℚ) × ℤ :=
  let args := (parse_actionAngleArgs C npot pot_type pot_args).1
  ((calcLoop C args R z nz out row nR).1, err)

/-- The loop of `eval_potential` (lines 57–59): `out[ii] =
evaluatePotentials(R[ii], z[ii], ...)` for each `ii` below the iteration
count, written directly into the output buffer. -/
def evalLoop (C : Collab) (args : List PotentialArg) (R z : ℕ → ℚ)
    (out : ℕ → ℚ) : ℕ → (ℕ → ℚ)
  | 0 => out
  | i+1 =>
    Function.update (evalLoop C args R z out i) i
      (evaluatePotentials C (R i) (z i) args)

/-- Shallow embedding of `eval_potential` (lines 44–65): parse the
descriptors, evaluate at the paired coordinates, tear down, and return the
final output buffer together with the status cell `*err` (initial contents
`err`).  The source never assigns `*err`, so it is returned unchanged. -/
def eval_potential (C : Collab) (nR : ℕ) (R z : ℕ → ℚ) (npot : ℕ)
    (pot_type : ℕ → ℤ) (pot_args : ℕ → ℚ) (out : ℕ → ℚ) (err : ℤ) :
    (ℕ → ℚ) × ℤ :=
  let args := (parse_actionAngleArgs C npot pot_type pot_args).1
  (evalLoop C args R z out nR, err)

/-- Entry indices of spline/table structures the teardown releases (lines
37–38 of `calc_potential`, identically 60–61 of `eval_potential`): the code
tests and frees `actionAngleArgs->i2d`, i.e. only entry 0's table, and only
when that entry owns one. -/
def teardownFreedI2d (args : List PotentialArg) : List ℕ :=
  match args with
  | [] => []
  | a :: _ => if a.hasI2d then [0] else []

/-- Entry indices of interpolation accelerators the teardown releases
(lines 39–40 of `calc_potential`, identically 62–63 of `eval_potential`):
the code tests and frees `actionAngleArgs->acc`, i.e. only entry 0's
accelerator, and only when that entry owns one. -/
def teardownFreedAcc (args : List PotentialArg) : List ℕ :=
  match args with
  | [] => []
  | a :: _ => if a.hasAcc then [0] else []

/-- Entry indices that own a spline/table structure. -/
def ownedI2d (args : List PotentialArg) : List ℕ :=
  (args.enum.filter (fun p => p.2.hasI2d)).map Prod.fst

/-- Entry indices that own an interpolation accelerator. -/
def ownedAcc (args : List PotentialArg) : List ℕ :=
  (args.enum.filter (fun p => p.2.hasAcc)).map Prod.fst

/-- The entry-list indices read or written over a whole call of either
entry point, as indices into the `malloc(npot * sizeof(struct
potentialArg))` block: the parser initializes and the composite evaluator
reads indices below `npot`, and the teardown reads entry 0 twice
(`actionAngleArgs->i2d` at line 37/60 and `actionAngleArgs->acc` at line
39/62) unconditionally.  An access is in bounds of the allocated block iff
its index is below `npot`. -/
def entryAccesses (npot : ℕ) : List ℕ :=
  List.range npot ++ [0, 0]

/-- A concrete collaborator in which every type code is recognized,
consumes no parameters, allocates both auxiliary resources, and evaluates
to zero. -/
def cW : Collab :=
  ⟨fun _ => some 0, fun _ _ => true, fun _ _ => true, fun _ _ _ _ => 0⟩

/-- A concrete collaborator that recognizes no type code at all. -/
def cBad : Collab :=
  ⟨fun _ => none, fun _ _ => false, fun _ _ => false, fun _ _ _ _ => 0⟩

/-- Within the filled prefix, the scratch row holds the composite value,
whatever the scratch buffer held before. -/
theorem fillRow_lt (C : Collab) (args : List PotentialArg) (Ri : ℚ)
    (z : ℕ → ℚ) (row : ℕ → ℚ) :
    ∀ m j, j < m → fillRow C args Ri z row m j = evaluatePotentials C Ri (z j) args := by
  intro m
  induction m with
  | zero => intro j hj; exact absurd hj (Nat.not_lt_zero j)
  | succ m ih =>
    intro j hj
    by_cases h : j = m
    · subst h
      simp [fillRow, Function.update_apply]
    · have hjm : j < m := lt_of_le_of_ne (Nat.lt_succ_iff.mp hj) h
      simp only [fillRow, Function.update_apply, if_neg h]
      exact ih j hjm

/-- Beyond the filled prefix, the scratch row is untouched. -/
theorem fillRow_ge (C : Collab) (args : List PotentialArg) (Ri : ℚ)
    (z : ℕ → ℚ) (row : ℕ → ℚ) :
    ∀ m j, m ≤ j → fillRow C args Ri z row m j = row j := by
  intro m
  induction m with
  | zero => intro j _; rfl
  | succ m ih =>
    intro j hj
    have h : j ≠ m := by omega
    simp only [fillRow, Function.update_apply, if_neg h]
    exact ih j (by omega)

/-- After `N` outer iterations of the grid walker, the output cell
`i*nz + j` (for `i < N`, `j < nz`) holds the composite value at
`(R i, z j)`. -/
theorem calcLoop_out_lt (C : Collab) (args : List PotentialArg)
    (R z : ℕ → ℚ) (nz : ℕ) (out row : ℕ → ℚ) :
    ∀ N i j, i < N → j < nz →
      (calcLoop C args R z nz out row N).1 (i * nz + j) =
        evaluatePotentials C (R i) (z j) args := by
  intro N
  induction N with
  | zero => intro i j hi _; exact absurd hi (Nat.not_lt_zero i)
  | succ N ih =>
    intro i j hi hj
    by_cases h : i = N
    · subst h
      have hc : i * nz ≤ i * nz + j ∧ i * nz + j < i * nz + nz :=
        ⟨Nat.le_add_right _ _, by omega⟩
      simp only [calcLoop, put_row, if_pos hc, Nat.add_sub_cancel_left]
      exact fillRow_lt C args (R i) z _ nz j hj
    · have hiN : i < N := lt_of_le_of_ne (Nat.lt_succ_iff.mp hi) h
      have hlt : i * nz + j < N * nz := by
        have h1 : i * nz + j < (i + 1) * nz := by
          rw [Nat.succ_mul]; omega
        have h2 : (i + 1) * nz ≤ N * nz := Nat.mul_le_mul_right nz hiN
        omega
      have hc : ¬ (N * nz ≤ i * nz + j ∧ i * nz + j < N * nz + nz) := by
        intro hcon; omega
      simp only [calcLoop, put_row, if_neg hc]
      exact ih i j hiN hj

/-- After `N` outer iterations of the grid walker, output cells at index
`N*nz` and beyond are untouched. -/
theorem calcLoop_out_ge (C : Collab) (args : List PotentialArg)
    (R z : ℕ → ℚ) (nz : ℕ) (out row : ℕ → ℚ) :
    ∀ N n, N * nz ≤ n → (calcLoop C args R z nz out row N).1 n = out n := by
  intro N
  induction N with
  | zero => intro n _; rfl
  | succ N ih =>
    intro n hn
    rw [Nat.succ_mul] at hn
    have hc : ¬ (N * nz ≤ n ∧ n < N * nz + nz) := by intro hcon; omega
    simp only [calcLoop, put_row, if_neg hc]
    exact ih n (by omega)

/-- After `N` iterations of the paired walker, the output cell `i < N`
holds the composite value at `(R i, z i)`. -/
theorem evalLoop_lt (C : Collab) (args : List PotentialArg) (R z : ℕ → ℚ)
    (out : ℕ → ℚ) :
    ∀ N i, i < N →
      evalLoop C args R z out N i = evaluatePotentials C (R i) (z i) args := by
  intro N
  induction N with
  | zero => intro i hi; exact absurd hi (Nat.not_lt_zero i)
  | succ N ih =>
    intro i hi
    by_cases h : i = N
    · subst h
      simp [evalLoop, Function.update_apply]
    · have hiN : i < N := lt_of_le_of_ne (Nat.lt_succ_iff.mp hi) h
      simp only [evalLoop, Function.update_apply, if_neg h]
      exact ih i hiN

/-- After `N` iterations of the paired walker, output cells at index `N`
and beyond are untouched. -/
theorem evalLoop_ge (C : Collab) (args : List PotentialArg) (R z : ℕ → ℚ)
    (out : ℕ → ℚ) :
    ∀ N n, N ≤ n → evalLoop C args R z out N n = out n := by
  intro N
  induction N with
  | zero => intro n _; rfl
  | succ N ih =>
    intro n hn
    have h : n ≠ N := by omega
    simp only [evalLoop, Function.update_apply, if_neg h]
    exact ih n (by omega)

/-- The value `calc_potential` leaves at grid cell `(i, j)`. -/
theorem calc_out_value (C : Collab) (nR : ℕ) (R : ℕ → ℚ) (nz : ℕ)
    (z : ℕ → ℚ) (npot : ℕ) (pot_type : ℕ → ℤ) (pot_args : ℕ → ℚ)
    (out row : ℕ → ℚ) (err : ℤ) (i j : ℕ) (hi : i < nR) (hj : j < nz) :
    (calc_potential C nR R nz z npot pot_type pot_args out row err).1 (i * nz + j) =
      evaluatePotentials C (R i) (z j)
        (parse_actionAngleArgs C npot pot_type pot_args).1 :=
  calcLoop_out_lt C _ R z nz out row nR i j hi hj

/-- The value `eval_potential` leaves at cell `i`. -/
theorem eval_out_value (C : Collab) (nR : ℕ) (R z : ℕ → ℚ) (npot : ℕ)
    (pot_type : ℕ → ℤ) (pot_args : ℕ → ℚ) (out : ℕ → ℚ) (err : ℤ)
    (i : ℕ) (hi : i < nR) :
    (eval_potential C nR R z npot pot_type pot_args out err).1 i =
      evaluatePotentials C (R i) (z i)
        (parse_actionAngleArgs C npot pot_type pot_args).1 :=
  evalLoop_lt C _ R z out nR i hi

/-- C1 (amended): neither `calc_potential` nor `eval_potential` ever writes
the status output `*err`: the status cell keeps its caller-provided value
on every path, including calls whose `pot_type` list contains an
unrecognized type code. -/
theorem c1_err_unchanged (C : Collab) (nR : ℕ) (R : ℕ → ℚ) (nz : ℕ)
    (z : ℕ → ℚ) (npot : ℕ) (pot_type : ℕ → ℤ) (pot_args : ℕ → ℚ)
    (out row : ℕ → ℚ) (err : ℤ) :
    (calc_potential C nR R nz z npot pot_type pot_args out row err).2 = err ∧
    (eval_potential C nR R z npot pot_type pot_args out err).2 = err :=
  ⟨rfl, rfl⟩

/-- C1 counterexample: with a collaborator that recognizes no type code,
parsing the single descriptor `-1` fails with `UnsupportedPotentialType`,
yet both entry points return the status cell still holding its initial
value 0 — not the nonzero value the claim requires. -/
theorem c1_counterexample :
    (parse_actionAngleArgs cBad 1 (fun _ => -1) (fun _ => 0)).2 = false ∧
    (calc_potential cBad 1 (fun _ => 1) 1 (fun _ => 1) 1 (fun _ => -1)
      (fun _ => 0) (fun _ => 0) (fun _ => 0) 0).2 = 0 ∧
    (eval_potential cBad 1 (fun _ => 1) (fun _ => 1) 1 (fun _ => -1)
      (fun _ => 0) (fun _ => 0) 0).2 = 0 :=
  ⟨rfl, rfl, rfl⟩

/-- C2: the teardown the two entry points share releases only entry 0's
auxiliary resources.  At the failing input — two successfully parsed
entries, each owning an accelerator and a spline/table — entries 0 and 1
both own resources, but the release set is `[0]` alone: entry 1's handles
are never released. -/
theorem c2_teardown_leak :
    ownedAcc (parse_actionAngleArgs cW 2 (fun _ => 0) (fun _ => 0)).1 = [0, 1] ∧
    ownedI2d (parse_actionAngleArgs cW 2 (fun _ => 0) (fun _ => 0)).1 = [0, 1] ∧
    teardownFreedAcc (parse_actionAngleArgs cW 2 (fun _ => 0) (fun _ => 0)).1 = [0] ∧
    teardownFreedI2d (parse_actionAngleArgs cW 2 (fun _ => 0) (fun _ => 0)).1 = [0] := by
  decide

/-- C3: for every call to `calc_potential` and indices `i < nR`, `j < nz`,
output cell `i*nz + j` holds the Composite Evaluator applied to
`(R[i], z[j])` and the parsed entry list: row-major order over the outer
product of `R` and `z`. -/
theorem c3_grid_row_major (C : Collab) (nR : ℕ) (R : ℕ → ℚ) (nz : ℕ)
    (z : ℕ → ℚ) (npot : ℕ) (pot_type : ℕ → ℤ) (pot_args : ℕ → ℚ)
    (out row : ℕ → ℚ) (err : ℤ) (i j : ℕ) (hi : i < nR) (hj : j < nz) :
    (calc_potential C nR R nz z npot pot_type pot_args out row err).1 (i * nz + j) =
      evaluatePotentials C (R i) (z j)
        (parse_actionAngleArgs C npot pot_type pot_args).1 :=
  calc_out_value C nR R nz z npot pot_type pot_args out row err i j hi hj

/-- C3 witness: the `nR = 2`, `nz = 3` grid at cell `(1, 2)`. -/
theorem c3_witness :
    (1 : ℕ) < 2 ∧ (2 : ℕ) < 3 ∧
    (calc_potential cW 2 (fun _ => 0) 3 (fun _ => 0) 1 (fun _ => 0)
        (fun _ => 0) (fun _ => 0) (fun _ => 0) 0).1 (1 * 3 + 2) =
      evaluatePotentials cW 0 0
        (parse_actionAngleArgs cW 1 (fun _ => 0) (fun _ => 0)).1 :=
  ⟨by decide, by decide,
    c3_grid_row_major cW 2 (fun _ => 0) 3 (fun _ => 0) 1 (fun _ => 0)
      (fun _ => 0) (fun _ => 0) (fun _ => 0) 0 1 2 (by decide) (by decide)⟩

/-- C4: for every call to `eval_potential` and index `i < nR`, output cell
`i` holds the Composite Evaluator applied to the paired coordinate
`(R[i], z[i])` and the parsed entry list, written directly. -/
theorem c4_paired (C : Collab) (nR : ℕ) (R z : ℕ → ℚ) (npot : ℕ)
    (pot_type : ℕ → ℤ) (pot_args : ℕ → ℚ) (out : ℕ → ℚ) (err : ℤ)
    (i : ℕ) (hi : i < nR) :
    (eval_potential C nR R z npot pot_type pot_args out err).1 i =
      evaluatePotentials C (R i) (z i)
        (parse_actionAngleArgs C npot pot_type pot_args).1 :=
  eval_out_value C nR R z npot pot_type pot_args out err i hi

/-- C4 witness: a paired call with `nR = 2` at index 1. -/
theorem c4_witness :
    (1 : ℕ) < 2 ∧
    (eval_potential cW 2 (fun _ => 0) (fun _ => 0) 1 (fun _ => 0)
        (fun _ => 0) (fun _ => 0) 0).1 1 =
      evaluatePotentials cW 0 0
        (parse_actionAngleArgs cW 1 (fun _ => 0) (fun _ => 0)).1 :=
  ⟨by decide,
    c4_paired cW 2 (fun _ => 0) (fun _ => 0) 1 (fun _ => 0) (fun _ => 0)
      (fun _ => 0) 0 1 (by decide)⟩

/-- C5: the grid value of `calc_potential` at cell `(i, j)` equals the
single value `eval_potential` writes for the one-element coordinate pair
`(R[i], z[j])` with the same descriptors, whatever the other call's initial
output buffer and status cell are: both route through the same composite
evaluation of the same parsed entry list. -/
theorem c5_consistency (C : Collab) (nR : ℕ) (R : ℕ → ℚ) (nz : ℕ)
    (z : ℕ → ℚ) (npot : ℕ) (pot_type : ℕ → ℤ) (pot_args : ℕ → ℚ)
    (out row out2 : ℕ → ℚ) (err err2 : ℤ) (i j : ℕ)
    (hi : i < nR) (hj : j < nz) :
    (calc_potential C nR R nz z npot pot_type pot_args out row err).1 (i * nz + j) =
      (eval_potential C 1 (fun _ => R i) (fun _ => z j) npot pot_type pot_args
        out2 err2).1 0 :=
  (calc_out_value C nR R nz z npot pot_type pot_args out row err i j hi hj).trans
    (eval_out_value C 1 (fun _ => R i) (fun _ => z j) npot pot_type pot_args
      out2 err2 0 Nat.one_pos).symm

/-- C5 witness: cell `(1, 2)` of a `2 × 3` grid against the corresponding
single-pair call. -/
theorem c5_witness :
    (1 : ℕ) < 2 ∧ (2 : ℕ) < 3 ∧
    (calc_potential cW 2 (fun _ => 0) 3 (fun _ => 0) 1 (fun _ => 0)
        (fun _ => 0) (fun _ => 0) (fun _ => 0) 0).1 (1 * 3 + 2) =
      (eval_potential cW 1 (fun _ => 0) (fun _ => 0) 1 (fun _ => 0)
        (fun _ => 0) (fun _ => 7) 5).1 0 :=
  ⟨by decide, by decide,
    c5_consistency cW 2 (fun _ => 0) 3 (fun _ => 0) 1 (fun _ => 0)
      (fun _ => 0) (fun _ => 0) (fun _ => 0) (fun _ => 7) 0 5 1 2
      (by decide) (by decide)⟩

/-- C6: two invocations of the same entry point on identical inputs yield
identical results — output buffer and status alike.  The embedding is a
pure function of its arguments: the source reads no global state, and all
call-local allocations are released before return. -/
theorem c6_deterministic (C : Collab) (nR nz npot : ℕ)
    (R R' z z' : ℕ → ℚ) (pt pt' : ℕ → ℤ) (pa pa' : ℕ → ℚ)
    (out out' row row' : ℕ → ℚ) (err err' : ℤ)
    (hR : R = R') (hz : z = z') (ht : pt = pt') (ha : pa = pa')
    (ho : out = out') (hw : row = row') (he : err = err') :
    calc_potential C nR R nz z npot pt pa out row err =
      calc_potential C nR R' nz z' npot pt' pa' out' row' err' ∧
    eval_potential C nR R z npot pt pa out err =
      eval_potential C nR R' z' npot pt' pa' out' err' := by
  subst hR hz ht ha ho hw he
  exact ⟨rfl, rfl⟩

/-- C6 witness: a concrete repeated invocation. -/
theorem c6_witness :
    calc_potential cW 1 (fun _ => 1) 1 (fun _ => 2) 1 (fun _ => 0)
        (fun _ => 3) (fun _ => 9) (fun _ => 4) 0 =
      calc_potential cW 1 (fun _ => 1) 1 (fun _ => 2) 1 (fun _ => 0)
        (fun _ => 3) (fun _ => 9) (fun _ => 4) 0 ∧
    eval_potential cW 1 (fun _ => 1) (fun _ => 2) 1 (fun _ => 0)
        (fun _ => 3) (fun _ => 9) 0 =
      eval_potential cW 1 (fun _ => 1) (fun _ => 2) 1 (fun _ => 0)
        (fun _ => 3) (fun _ => 9) 0 :=
  c6_deterministic cW 1 1 1 (fun _ => 1) (fun _ => 1) (fun _ => 2)
    (fun _ => 2) (fun _ => 0) (fun _ => 0) (fun _ => 3) (fun _ => 3)
    (fun _ => 9) (fun _ => 9) (fun _ => 4) (fun _ => 4) 0 0
    rfl rfl rfl rfl rfl rfl rfl

/-- C7: when every per-type evaluation returns zero at every coordinate,
`calc_potential` writes zero at every grid cell `i*nz + j`, for any
coordinate arrays and any number of components. -/
theorem c7_zero_grid (C : Collab) (nR : ℕ) (R : ℕ → ℚ) (nz : ℕ)
    (z : ℕ → ℚ) (npot : ℕ) (pot_type : ℕ → ℤ) (pot_args : ℕ → ℚ)
    (out row : ℕ → ℚ) (err : ℤ) (i j : ℕ)
    (h0 : ∀ ty ps r zz, C.potEval ty ps r zz = 0)
    (hi : i < nR) (hj : j < nz) :
    (calc_potential C nR R nz z npot pot_type pot_args out row err).1 (i * nz + j) = 0 := by
  rw [calc_out_value C nR R nz z npot pot_type pot_args out row err i j hi hj]
  refine List.sum_eq_zero ?_
  intro x hx
  rcases List.mem_map.mp hx with ⟨a, _, rfl⟩
  exact h0 a.ptype a.params (R i) (z j)

/-- C7 witness: three zero components on a `2 × 3` grid, cell `(1, 2)`. -/
theorem c7_witness :
    (1 : ℕ) < 2 ∧ (2 : ℕ) < 3 ∧
    (calc_potential cW 2 (fun _ => 5) 3 (fun _ => 6) 3 (fun _ => 0)
        (fun _ => 7) (fun _ => 8) (fun _ => 9) 0).1 (1 * 3 + 2) = 0 :=
  ⟨by decide, by decide,
    c7_zero_grid cW 2 (fun _ => 5) 3 (fun _ => 6) 3 (fun _ => 0)
      (fun _ => 7) (fun _ => 8) (fun _ => 9) 0 1 2
      (fun _ _ _ _ => rfl) (by decide) (by decide)⟩

/-- C8: the grid walker writes only cells `0 .. nR*nz - 1` of the output
buffer and the paired walker only cells `0 .. nR - 1`: any cell at or past
that bound keeps its initial contents.  (Buffers are modelled as fixed
total functions, so no resizing is possible; the coordinate and descriptor
arrays are consumed purely.) -/
theorem c8_frame (C : Collab) (nR : ℕ) (R : ℕ → ℚ) (nz : ℕ) (z : ℕ → ℚ)
    (npot : ℕ) (pot_type : ℕ → ℤ) (pot_args : ℕ → ℚ) (out row : ℕ → ℚ)
    (err : ℤ) (n : ℕ) :
    (nR * nz ≤ n →
      (calc_potential C nR R nz z npot pot_type pot_args out row err).1 n = out n) ∧
    (nR ≤ n →
      (eval_potential C nR R z npot pot_type pot_args out err).1 n = out n) :=
  ⟨fun h => calcLoop_out_ge C _ R z nz out row nR n h,
   fun h => evalLoop_ge C _ R z out nR n h⟩

/-- C8 witness: cell 5 of the output buffer is untouched by a `2 × 2` grid
call and by a 2-element paired call. -/
theorem c8_witness :
    (calc_potential cW 2 (fun _ => 1) 2 (fun _ => 1) 1 (fun _ => 0)
        (fun _ => 0) (fun _ => 3) (fun _ => 0) 0).1 5 = 3 ∧
    (eval_potential cW 2 (fun _ => 1) (fun _ => 1) 1 (fun _ => 0)
        (fun _ => 0) (fun _ => 3) 0).1 5 = 3 :=
  ⟨(c8_frame cW 2 (fun _ => 1) 2 (fun _ => 1) 1 (fun _ => 0) (fun _ => 0)
      (fun _ => 3) (fun _ => 0) 0 5).1 (by decide),
   (c8_frame cW 2 (fun _ => 1) 2 (fun _ => 1) 1 (fun _ => 0) (fun _ => 0)
      (fun _ => 3) (fun _ => 0) 0 5).2 (by decide)⟩

/-- C9: the teardown reads entry 0 of the entry block unconditionally, so
all entry-block accesses of either entry point are in bounds of the
`npot`-entry allocation exactly when `npot ≥ 1`; for `npot = 0` the
teardown's read of entry 0 is out of bounds. -/
theorem c9_teardown_access (npot : ℕ) :
    (0 : ℕ) ∈ entryAccesses npot ∧
    ((∀ k ∈ entryAccesses npot, k < npot) ↔ 1 ≤ npot) := by
  constructor
  · simp [entryAccesses]
  · constructor
    · intro h
      exact h 0 (by simp [entryAccesses])
    · intro h k hk
      rcases List.mem_append.mp hk with hk | hk
      · exact List.mem_range.mp hk
      · have : k = 0 := by
          rcases hk with _ | ⟨_, hk⟩
          · rfl
          · rcases hk with _ | ⟨_, hk⟩
            · rfl
            · cases hk
        omega

/-- C9 witness: instances at `npot = 2` and `npot = 0`. -/
theorem c9_witness :
    ((0 : ℕ) ∈ entryAccesses 2 ∧
      ((∀ k ∈ entryAccesses 2, k < 2) ↔ 1 ≤ 2)) ∧
    ((0 : ℕ) ∈ entryAccesses 0 ∧
      ((∀ k ∈ entryAccesses 0, k < 0) ↔ 1 ≤ 0)) :=
  ⟨c9_teardown_access 2, c9_teardown_access 0⟩

/-- The parser reads only the `n` type codes starting at descriptor index
`i` and the parameter cells those descriptors consume: agreement there
yields identical entry lists and identical parse status. -/
theorem parseFrom_agree (C : Collab) (pt pt' : ℕ → ℤ) (pa pa' : ℕ → ℚ)
    (n : ℕ) :
    ∀ i off, (∀ d, d < n → pt (i + d) = pt' (i + d)) →
      (∀ m, m < consumedFrom C pt i n → pa (off + m) = pa' (off + m)) →
      parseFrom C pt pa i off n = parseFrom C pt' pa' i off n := by
  induction n with
  | zero => intro i off _ _; rfl
  | succ n ih =>
    intro i off ht ha
    have h0 : pt i = pt' i := by simpa using ht 0 n.succ_pos
    simp only [parseFrom]
    rw [← h0]
    cases hnc : C.nargs (pt i) with
    | none => simp [hnc]
    | some k =>
      have hcons : consumedFrom C pt i (n + 1) = k + consumedFrom C pt (i+1) n := by
        simp [consumedFrom, hnc]
      have hps : (List.ofFn fun j : Fin k => pa (off + j.1)) =
          (List.ofFn fun j : Fin k => pa' (off + j.1)) := by
        refine congrArg List.ofFn (funext fun j => ?_)
        exact ha j.1 (by rw [hcons]; omega)
      have hrec : parseFrom C pt pa (i+1) (off+k) n =
          parseFrom C pt' pa' (i+1) (off+k) n := by
        refine ih (i+1) (off+k) (fun d hd => ?_) (fun m hm => ?_)
        · have hh := ht (d+1) (Nat.succ_lt_succ hd)
          rwa [show i + (d+1) = i + 1 + d from by omega] at hh
        · have hh := ha (k+m) (by rw [hcons]; omega)
          rwa [show off + (k+m) = off + k + m from by omega] at hh
      simp only [hnc, hps, hrec, h0]

/-- C10: the results of both entry points depend only on the declared
prefixes of the caller arrays — the first `nR` coordinates, the first `nz`
(grid mode) coordinates, the first `npot` type codes and the parameter
cells those descriptors consume — never on any other memory contents
(initial output buffer, scratch row, status cell, or array cells past the
declared counts). -/
theorem c10_input_dependence (C : Collab) (nR nz npot : ℕ)
    (R R' z z' : ℕ → ℚ) (pt pt' : ℕ → ℤ) (pa pa' : ℕ → ℚ)
    (out out' row row' : ℕ → ℚ) (err err' : ℤ)
    (hR : ∀ i, i < nR → R i = R' i)
    (ht : ∀ k, k < npot → pt k = pt' k)
    (ha : ∀ m, m < consumed C npot pt → pa m = pa' m) :
    ((∀ j, j < nz → z j = z' j) →
      ∀ n, n < nR * nz →
        (calc_potential C nR R nz z npot pt pa out row err).1 n =
          (calc_potential C nR R' nz z' npot pt' pa' out' row' err').1 n) ∧
    ((∀ i, i < nR → z i = z' i) →
      ∀ i, i < nR →
        (eval_potential C nR R z npot pt pa out err).1 i =
          (eval_potential C nR R' z' npot pt' pa' out' err').1 i) := by
  have hparse : parse_actionAngleArgs C npot pt pa =
      parse_actionAngleArgs C npot pt' pa' :=
    parseFrom_agree C pt pt' pa pa' npot 0 0
      (fun d hd => by simpa using ht d hd) (fun m hm => by simpa using ha m hm)
  constructor
  · intro hz n hn
    have hnz : 0 < nz := by
      rcases Nat.eq_zero_or_pos nz with h | h
      · subst h; simp at hn
      · exact h
    have hj : n % nz < nz := Nat.mod_lt _ hnz
    have hi : n / nz < nR := (Nat.div_lt_iff_lt_mul hnz).mpr hn
    have hdm := Nat.div_add_mod n nz
    rw [Nat.mul_comm] at hdm
    have hrep : n = n / nz * nz + n % nz := hdm.symm
    rw [hrep,
      calc_out_value C nR R nz z npot pt pa out row err _ _ hi hj,
      calc_out_value C nR R' nz z' npot pt' pa' out' row' err' _ _ hi hj,
      hparse, hR _ hi, hz _ hj]
  · intro hz i hi
    rw [eval_out_value C nR R z npot pt pa out err i hi,
      eval_out_value C nR R' z' npot pt' pa' out' err' i hi,
      hparse, hR _ hi, hz _ hi]

/-- C10 witness: two calls whose arrays agree only on the declared
prefixes (and whose scratch, initial output, status cell and
beyond-the-prefix cells all differ) produce the same written cells. -/
theorem c10_witness :
    (calc_potential cW 1 (fun n => if n = 0 then 1 else 5) 1
        (fun n => if n = 0 then 2 else 5) 1 (fun n => if n = 0 then 0 else 9)
        (fun _ => 3) (fun _ => 10) (fun _ => 11) 0).1 0 =
      (calc_potential cW 1 (fun n => if n = 0 then 1 else 7) 1
        (fun n => if n = 0 then 2 else 7) 1 (fun n => if n = 0 then 0 else 8)
        (fun _ => 4) (fun _ => 20) (fun _ => 21) 6).1 0 ∧
    (eval_potential cW 1 (fun n => if n = 0 then 1 else 5)
        (fun n => if n = 0 then 2 else 5) 1 (fun n => if n = 0 then 0 else 9)
        (fun _ => 3) (fun _ => 10) 0).1 0 =
      (eval_potential cW 1 (fun n => if n = 0 then 1 else 7)
        (fun n => if n = 0 then 2 else 7) 1 (fun n => if n = 0 then 0 else 8)
        (fun _ => 4) (fun _ => 20) 6).1 0 :=
  ⟨(c10_input_dependence cW 1 1 1
      (fun n => if n = 0 then 1 else 5) (fun n => if n = 0 then 1 else 7)
      (fun n => if n = 0 then 2 else 5) (fun n => if n = 0 then 2 else 7)
      (fun n => if n = 0 then 0 else 9) (fun n => if n = 0 then 0 else 8)
      (fun _ => 3) (fun _ => 4) (fun _ => 10) (fun _ => 20)
      (fun _ => 11) (fun _ => 21) 0 6
      (by decide) (by decide) (by decide)).1 (by decide) 0 (by decide),
   (c10_input_dependence cW 1 1 1
      (fun n => if n = 0 then 1 else 5) (fun n => if n = 0 then 1 else 7)
      (fun n => if n = 0 then 2 else 5) (fun n => if n = 0 then 2 else 7)
      (fun n => if n = 0 then 0 else 9) (fun n => if n = 0 then 0 else 8)
      (fun _ => 3) (fun _ => 4) (fun _ => 10) (fun _ => 20)
      (fun _ => 11) (fun _ => 21) 0 6
      (by decide) (by decide) (by decide)).2 (by decide) 0 (by decide)⟩
